import Mathlib

/-!
Shallow embedding of `src/sc-c.c` (Santa Claus Problem, POSIX semaphores).

The C program runs one coordinator thread (`santaThread`), `NUM_REINDEER`
reindeer threads and `NUM_ELVES` elf threads, sharing counting semaphores
(`santaSem`, `reindeerSem`, `elfSem`, `santaMutex`) and two pthread mutexes
(`reindeerMutex`, `elfMutex`) together with the shared integers
`reindeerCount`, `elfCount`, `waitingElves`, `deliveries`, `elfConsultations`.

We model the program as an interleaved small-step transition system.  Each
thread is given a program counter marking the point just before each
statement that touches shared state (semaphore operations, mutex operations,
reads/writes of the shared counters).  `printf` and `usleep` calls have no
shared-state effect and are folded into the adjacent transition; the
fixed-duration service `usleep` of the coordinator is folded into the
statistics-counter increment that immediately follows it in the source, so
its position in control flow is preserved.  The C counters are only ever
incremented or assigned the non-negative constants 0 and 3, so `Nat` is a
faithful model of the C `int` values (no overflow is remotely reachable in
bounded cohorts, no decrement below zero exists).  A counting semaphore is a
`Nat` (`sem_wait` blocks unless positive, then decrements; `sem_post`
increments); a pthread mutex is a `Bool` (`lock` blocks while `true`).
-/

namespace SantaClaus

/-- `#define NUM_REINDEER 9` -/
def NUM_REINDEER : Nat := 9

/-- `#define NUM_ELVES 10` -/
def NUM_ELVES : Nat := 10

/-- `#define ELF_GROUP_SIZE 3` -/
def ELF_GROUP_SIZE : Nat := 3

/-- Program counter of `santaThread` (src/sc-c.c lines 59-117).  Each
constructor is the point just before the statement it names. -/
inductive SPc where
  /-- line 64: `sem_wait(&santaSem)` -/
  | waitSanta
  /-- line 66: `sem_wait(&santaMutex)` -/
  | waitMutex
  /-- line 69: `pthread_mutex_lock(&reindeerMutex)` -/
  | lockR
  /-- line 70: `if (reindeerCount == NUM_REINDEER)` -/
  | checkR
  /-- lines 75-77: release loop, `i` iterations of `sem_post(&reindeerSem)` done -/
  | postR (i : Nat)
  /-- line 79: `reindeerCount = 0` -/
  | resetR
  /-- line 80: `pthread_mutex_unlock(&reindeerMutex)` (service branch) -/
  | unlockRs
  /-- lines 82-83: `usleep(500000); deliveries++` -/
  | delivInc
  /-- line 88: `pthread_mutex_unlock(&reindeerMutex)` (else branch) -/
  | unlockRe
  /-- line 91: `pthread_mutex_lock(&elfMutex)` -/
  | lockE
  /-- line 92: `if (elfCount == ELF_GROUP_SIZE)` -/
  | checkE
  /-- lines 97-99: release loop, `i` iterations of `sem_post(&elfSem)` done -/
  | postE (i : Nat)
  /-- line 101: `elfCount = 0` -/
  | resetE
  /-- line 102: `pthread_mutex_unlock(&elfMutex)` (service branch) -/
  | unlockEs
  /-- lines 104-105: `usleep(300000); elfConsultations++` -/
  | consInc
  /-- line 109: `pthread_mutex_unlock(&elfMutex)` (else branch) -/
  | unlockEe
  /-- line 113: `sem_post(&santaMutex)` -/
  | postMutex
deriving DecidableEq

/-- Program counter of a `reindeerThread` (src/sc-c.c lines 119-146). -/
inductive RPc where
  /-- lines 125-128: vacation `usleep`, then `pthread_mutex_lock(&reindeerMutex)` -/
  | rvac
  /-- line 129: `reindeerCount++` -/
  | rlocked
  /-- line 131: `if (reindeerCount == NUM_REINDEER)` -/
  | rchk
  /-- line 133: `sem_post(&santaSem)` -/
  | rpost
  /-- line 136: `pthread_mutex_unlock(&reindeerMutex)` -/
  | runl
  /-- line 139: `sem_wait(&reindeerSem)`; afterwards harness `usleep` and loop -/
  | rwait
deriving DecidableEq

/-- Program counter of an `elfThread` (src/sc-c.c lines 148-178). -/
inductive EPc where
  /-- lines 154-156: toy-work `usleep`, then `pthread_mutex_lock(&elfMutex)` -/
  | evac
  /-- line 157: `waitingElves++` -/
  | elocked
  /-- lines 159-162: `if (waitingElves == ELF_GROUP_SIZE)` and, when taken,
  `elfCount = ELF_GROUP_SIZE; waitingElves = 0` (both under `elfMutex`) -/
  | echk
  /-- line 163: `sem_post(&santaSem)` -/
  | epost
  /-- line 168: `pthread_mutex_unlock(&elfMutex)` -/
  | eunl
  /-- line 171: `sem_wait(&elfSem)`; afterwards consultation `usleep` and loop -/
  | ewait
deriving DecidableEq

/-- Global shared state of the program plus all thread program counters. -/
structure SCState where
  santaSem : Nat
  reindeerSem : Nat
  elfSem : Nat
  santaMutex : Nat
  reindeerMutex : Bool
  elfMutex : Bool
  reindeerCount : Nat
  elfCount : Nat
  waitingElves : Nat
  deliveries : Nat
  elfConsultations : Nat
  santaPc : SPc
  reindeerPcs : List RPc
  elfPcs : List EPc
deriving DecidableEq

/-- One step of `santaThread` from state `s`; `none` when the thread is
blocked (at a `sem_wait` with value 0 or a `lock` of a held mutex). -/
def santaStep (s : SCState) : Option SCState :=
  match s.santaPc with
  | .waitSanta =>
      if s.santaSem > 0 then
        some { s with santaSem := s.santaSem - 1, santaPc := .waitMutex }
      else none
  | .waitMutex =>
      if s.santaMutex > 0 then
        some { s with santaMutex := s.santaMutex - 1, santaPc := .lockR }
      else none
  | .lockR =>
      if s.reindeerMutex then none
      else some { s with reindeerMutex := true, santaPc := .checkR }
  | .checkR =>
      if s.reindeerCount = NUM_REINDEER then some { s with santaPc := .postR 0 }
      else some { s with santaPc := .unlockRe }
  | .postR i =>
      if i < NUM_REINDEER then
        some { s with reindeerSem := s.reindeerSem + 1, santaPc := .postR (i + 1) }
      else some { s with santaPc := .resetR }
  | .resetR => some { s with reindeerCount := 0, santaPc := .unlockRs }
  | .unlockRs => some { s with reindeerMutex := false, santaPc := .delivInc }
  | .delivInc => some { s with deliveries := s.deliveries + 1, santaPc := .postMutex }
  | .unlockRe => some { s with reindeerMutex := false, santaPc := .lockE }
  | .lockE =>
      if s.elfMutex then none
      else some { s with elfMutex := true, santaPc := .checkE }
  | .checkE =>
      if s.elfCount = ELF_GROUP_SIZE then some { s with santaPc := .postE 0 }
      else some { s with santaPc := .unlockEe }
  | .postE i =>
      if i < ELF_GROUP_SIZE then
        some { s with elfSem := s.elfSem + 1, santaPc := .postE (i + 1) }
      else some { s with santaPc := .resetE }
  | .resetE => some { s with elfCount := 0, santaPc := .unlockEs }
  | .unlockEs => some { s with elfMutex := false, santaPc := .consInc }
  | .consInc =>
      some { s with elfConsultations := s.elfConsultations + 1, santaPc := .postMutex }
  | .unlockEe => some { s with elfMutex := false, santaPc := .postMutex }
  | .postMutex => some { s with santaMutex := s.santaMutex + 1, santaPc := .waitSanta }

/-- One step of reindeer thread `i` from state `s`; `none` when blocked
or when `i` is not a valid reindeer index. -/
def reindeerStep (i : Nat) (s : SCState) : Option SCState :=
  match s.reindeerPcs[i]? with
  | none => none
  | some pc =>
    match pc with
    | .rvac =>
        if s.reindeerMutex then none
        else some { s with reindeerMutex := true,
                           reindeerPcs := s.reindeerPcs.set i .rlocked }
    | .rlocked =>
        some { s with reindeerCount := s.reindeerCount + 1,
                      reindeerPcs := s.reindeerPcs.set i .rchk }
    | .rchk =>
        if s.reindeerCount = NUM_REINDEER then
          some { s with reindeerPcs := s.reindeerPcs.set i .rpost }
        else some { s with reindeerPcs := s.reindeerPcs.set i .runl }
    | .rpost =>
        some { s with santaSem := s.santaSem + 1,
                      reindeerPcs := s.reindeerPcs.set i .runl }
    | .runl =>
        some { s with reindeerMutex := false,
                      reindeerPcs := s.reindeerPcs.set i .rwait }
    | .rwait =>
        if s.reindeerSem > 0 then
          some { s with reindeerSem := s.reindeerSem - 1,
                        reindeerPcs := s.reindeerPcs.set i .rvac }
        else none

/-- One step of elf thread `j` from state `s`; `none` when blocked or when
`j` is not a valid elf index. -/
def elfStep (j : Nat) (s : SCState) : Option SCState :=
  match s.elfPcs[j]? with
  | none => none
  | some pc =>
    match pc with
    | .evac =>
        if s.elfMutex then none
        else some { s with elfMutex := true, elfPcs := s.elfPcs.set j .elocked }
    | .elocked =>
        some { s with waitingElves := s.waitingElves + 1,
                      elfPcs := s.elfPcs.set j .echk }
    | .echk =>
        if s.waitingElves = ELF_GROUP_SIZE then
          some { s with elfCount := ELF_GROUP_SIZE, waitingElves := 0,
                        elfPcs := s.elfPcs.set j .epost }
        else some { s with elfPcs := s.elfPcs.set j .eunl }
    | .epost =>
        some { s with santaSem := s.santaSem + 1, elfPcs := s.elfPcs.set j .eunl }
    | .eunl =>
        some { s with elfMutex := false, elfPcs := s.elfPcs.set j .ewait }
    | .ewait =>
        if s.elfSem > 0 then
          some { s with elfSem := s.elfSem - 1, elfPcs := s.elfPcs.set j .evac }
        else none

/-- Interleaving step relation: some thread takes one enabled step. -/
def StepTo (s s' : SCState) : Prop :=
  santaStep s = some s' ∨ (∃ i, reindeerStep i s = some s') ∨
    (∃ j, elfStep j s = some s')

/-- Initial state as set up by `main` (src/sc-c.c lines 180-218): all
counters zero, `santaSem`/`reindeerSem`/`elfSem` initialized to 0,
`santaMutex` to 1, both mutexes unlocked, every thread at its loop head. -/
def initState : SCState where
  santaSem := 0
  reindeerSem := 0
  elfSem := 0
  santaMutex := 1
  reindeerMutex := false
  elfMutex := false
  reindeerCount := 0
  elfCount := 0
  waitingElves := 0
  deliveries := 0
  elfConsultations := 0
  santaPc := .waitSanta
  reindeerPcs := List.replicate NUM_REINDEER .rvac
  elfPcs := List.replicate NUM_ELVES .evac

/-- A state reachable from the initial state by interleaved steps. -/
def Reachable (s : SCState) : Prop :=
  Relation.ReflTransGen StepTo initState s

/-- Thread identifier, used to describe concrete schedules. -/
inductive Tid where
  | santa
  | reindeer (i : Nat)
  | elf (j : Nat)
deriving DecidableEq

/-- Step of an identified thread. -/
def threadStep : Tid → SCState → Option SCState
  | .santa => santaStep
  | .reindeer i => reindeerStep i
  | .elf j => elfStep j

/-- Execute a concrete schedule (list of thread choices);
`none` if any chosen thread is blocked. -/
def runSched : List Tid → SCState → Option SCState
  | [], s => some s
  | t :: ts, s =>
    match threadStep t s with
    | some s' => runSched ts s'
    | none => none

theorem threadStep_to {t : Tid} {s s' : SCState} (h : threadStep t s = some s') :
    StepTo s s' := by
  cases t with
  | santa => exact Or.inl h
  | reindeer i => exact Or.inr (Or.inl ⟨i, h⟩)
  | elf j => exact Or.inr (Or.inr ⟨j, h⟩)

theorem runSched_reachable {l : List Tid} {s s' : SCState}
    (hs : Reachable s) (h : runSched l s = some s') : Reachable s' := by
  induction l generalizing s with
  | nil =>
    have : s = s' := by simpa [runSched] using h
    exact this ▸ hs
  | cons t ts ih =>
    unfold runSched at h
    cases ht : threadStep t s with
    | none => rw [ht] at h; exact absurd h (by simp)
    | some s₁ =>
      rw [ht] at h
      exact ih (hs.tail (threadStep_to ht)) h

/-! ### Auxiliary predicates for the global invariant -/

/-- Reindeer program counters inside the `reindeerMutex` critical section. -/
def rInSec : RPc → Bool
  | .rlocked | .rchk | .rpost | .runl => true
  | _ => false

/-- Reindeer program counters of a reindeer that has executed
`reindeerCount++` for the current cohort and has not yet consumed its
`reindeerSem` release. -/
def rArrived : RPc → Bool
  | .rchk | .rpost | .runl | .rwait => true
  | _ => false

/-- Elf program counters inside the `elfMutex` critical section. -/
def eInSec : EPc → Bool
  | .elocked | .echk | .epost | .eunl => true
  | _ => false

/-- Santa program counters at which `santaThread` holds `reindeerMutex`. -/
def sRHeld : SPc → Bool
  | .checkR | .postR _ | .resetR | .unlockRs | .unlockRe => true
  | _ => false

/-- Santa program counters at which `santaThread` holds `elfMutex`. -/
def sEHeld : SPc → Bool
  | .checkE | .postE _ | .resetE | .unlockEs | .unlockEe => true
  | _ => false

/-- Santa program counters inside the `santaMutex`-guarded
decide-and-service sequence (everything between `sem_wait(&santaMutex)`
succeeding and `sem_post(&santaMutex)` executing). -/
def sCrit : SPc → Bool
  | .waitSanta | .waitMutex => false
  | _ => true

/-- Number of `sem_post(&reindeerSem)` release posts Santa has already
issued in its current reindeer-service pass, as a function of its pc. -/
def rDelta : SPc → Nat
  | .postR i => min i NUM_REINDEER
  | .resetR => NUM_REINDEER
  | _ => 0

/-! ### List counting helpers -/

theorem countP_set_add {α : Type} (p : α → Bool) (l : List α) (i : Nat) (a x : α)
    (h : l[i]? = some a) :
    (l.set i x).countP p + (if p a then 1 else 0)
      = l.countP p + (if p x then 1 else 0) := by
  obtain ⟨hlt, hget⟩ := List.getElem?_eq_some_iff.mp h
  have hle := List.boole_getElem_le_countP p l i hlt
  rw [hget] at hle
  rw [List.countP_set p l i x hlt, hget]
  by_cases hpa : p a <;> by_cases hpx : p x <;>
    simp only [hpa, hpx, if_true, if_false] at hle ⊢ <;> omega

theorem one_le_countP {α : Type} {p : α → Bool} {l : List α} {i : Nat} {a : α}
    (h : l[i]? = some a) (hp : p a = true) : 1 ≤ l.countP p := by
  have := List.countP_pos_iff.mpr ⟨a, List.getElem?_mem h, hp⟩
  omega

theorem countP_add_one_le_length {α : Type} {p : α → Bool} {l : List α} {i : Nat}
    {a : α} (h : l[i]? = some a) (hp : p a = false) : l.countP p + 1 ≤ l.length := by
  have hlen := List.length_eq_countP_add_countP (p := p) l
  have : 1 ≤ l.countP (fun x => !p x) :=
    one_le_countP h (by simp [hp])
  have heq : l.countP (fun x => !p x) = l.countP (fun x => ¬p x) := by
    apply List.countP_congr
    intro x _
    simp
  omega

theorem mem_set_of_ne {α : Type} {l : List α} {j : Nat} {a b : α} {x : α}
    (hm : b ∈ l) (hj : l[j]? = some a) (hne : b ≠ a) : b ∈ l.set j x := by
  obtain ⟨k, hk⟩ := List.mem_iff_getElem?.mp hm
  have hkj : j ≠ k := by
    intro e
    subst e
    rw [hj] at hk
    exact hne (by injection hk; simp_all)
  refine List.getElem?_mem (?_ : (l.set j x)[k]? = some b)
  rw [List.getElem?_set_ne hkj]
  exact hk

/-! ### The global inductive invariant -/

/-- Inductive invariant of the transition system.  The conjuncts:
1-2: the thread-pool sizes are fixed;
3: `santaMutex` accounting — it is held exactly while Santa is in its
   decide-and-service sequence;
4: `reindeerMutex` accounting — the number of threads inside a
   `reindeerMutex` critical section is 1 when the mutex is locked, 0 when not;
5: `elfMutex` accounting, likewise;
6: `reindeerCount` accounting — arrivals minus consumed releases balance
   the counter and the pending `reindeerSem` posts;
7: during Santa's reindeer release loop and reset, `reindeerCount` is
   still `NUM_REINDEER`;
8-9: `waitingElves` never exceeds `ELF_GROUP_SIZE`, and it equals
   `ELF_GROUP_SIZE` only momentarily, while the trio-completing elf is at
   its group-completion check;
10: `elfCount` is always 0 or `ELF_GROUP_SIZE`. -/
def Inv (s : SCState) : Prop :=
  s.reindeerPcs.length = NUM_REINDEER ∧
  s.elfPcs.length = NUM_ELVES ∧
  s.santaMutex = (if sCrit s.santaPc then 0 else 1) ∧
  s.reindeerPcs.countP rInSec + (if sRHeld s.santaPc then 1 else 0)
    = (if s.reindeerMutex then 1 else 0) ∧
  s.elfPcs.countP eInSec + (if sEHeld s.santaPc then 1 else 0)
    = (if s.elfMutex then 1 else 0) ∧
  s.reindeerCount + s.reindeerSem = s.reindeerPcs.countP rArrived + rDelta s.santaPc ∧
  ((∃ i, s.santaPc = SPc.postR i) ∨ s.santaPc = SPc.resetR →
    s.reindeerCount = NUM_REINDEER) ∧
  s.waitingElves ≤ ELF_GROUP_SIZE ∧
  (s.waitingElves = ELF_GROUP_SIZE → EPc.echk ∈ s.elfPcs) ∧
  (s.elfCount = 0 ∨ s.elfCount = ELF_GROUP_SIZE)

theorem inv_init : Inv initState := by
  constructor
  · simp [initState]
  refine ⟨by simp [initState], by simp [initState, sCrit], ?_, ?_, ?_, ?_, ?_, ?_, ?_⟩ <;>
    simp [initState, sCrit, sRHeld, sEHeld, rInSec, eInSec, rArrived, rDelta,
      List.countP_eq_zero, NUM_REINDEER, NUM_ELVES, ELF_GROUP_SIZE]

theorem santa_inv {s s' : SCState} (hv : Inv s) (hs : santaStep s = some s') :
    Inv s' := by
  obtain ⟨h1, h2, h3, h4, h5, h6, h7, h8, h9, h10⟩ := hv
  cases hpc : s.santaPc
  case waitSanta =>
    by_cases hp : s.santaSem > 0 <;> simp [santaStep, hpc, hp] at hs
    subst hs
    refine ⟨h1, h2, ?_, ?_, ?_, ?_, ?_, h8, h9, h10⟩
    · simpa [sCrit, hpc] using h3
    · simpa [sRHeld, hpc] using h4
    · simpa [sEHeld, hpc] using h5
    · simpa [rDelta, hpc] using h6
    · rintro (⟨k, hk⟩ | hk) <;> simp at hk
  case waitMutex =>
    by_cases hp : s.santaMutex > 0 <;> simp [santaStep, hpc, hp] at hs
    subst hs
    refine ⟨h1, h2, ?_, ?_, ?_, ?_, ?_, h8, h9, h10⟩
    · simp [sCrit, hpc] at h3
      simp [sCrit, h3]
    · simpa [sRHeld, hpc] using h4
    · simpa [sEHeld, hpc] using h5
    · simpa [rDelta, hpc] using h6
    · rintro (⟨k, hk⟩ | hk) <;> simp at hk
  case lockR =>
    cases hm : s.reindeerMutex <;> simp [santaStep, hpc, hm] at hs
    subst hs
    refine ⟨h1, h2, ?_, ?_, ?_, ?_, ?_, h8, h9, h10⟩
    · simpa [sCrit, hpc] using h3
    · simp [sRHeld, hpc, hm] at h4
      simpa [sRHeld] using h4
    · simpa [sEHeld, hpc] using h5
    · simpa [rDelta, hpc] using h6
    · rintro (⟨k, hk⟩ | hk) <;> simp at hk
  case checkR =>
    by_cases hrc : s.reindeerCount = NUM_REINDEER <;> simp [santaStep, hpc, hrc] at hs
    · subst hs
      refine ⟨h1, h2, ?_, ?_, ?_, ?_, ?_, h8, h9, h10⟩
      · simpa [sCrit, hpc] using h3
      · simpa [sRHeld, hpc] using h4
      · simpa [sEHeld, hpc] using h5
      · simpa [rDelta, hpc, hrc] using h6
      · intro _; simp [hrc]
    · subst hs
      refine ⟨h1, h2, ?_, ?_, ?_, ?_, ?_, h8, h9, h10⟩
      · simpa [sCrit, hpc] using h3
      · simpa [sRHeld, hpc] using h4
      · simpa [sEHeld, hpc] using h5
      · simpa [rDelta, hpc] using h6
      · rintro (⟨k, hk⟩ | hk) <;> simp at hk
  case postR i =>
    by_cases hi : i < NUM_REINDEER <;> simp [santaStep, hpc, hi] at hs
    · subst hs
      refine ⟨h1, h2, ?_, ?_, ?_, ?_, ?_, h8, h9, h10⟩
      · simpa [sCrit, hpc] using h3
      · simpa [sRHeld, hpc] using h4
      · simpa [sEHeld, hpc] using h5
      · simp only [NUM_REINDEER] at hi
        simp [rDelta, hpc, NUM_REINDEER] at h6 ⊢
        omega
      · intro _; exact h7 (Or.inl ⟨i, hpc⟩)
    · subst hs
      refine ⟨h1, h2, ?_, ?_, ?_, ?_, ?_, h8, h9, h10⟩
      · simpa [sCrit, hpc] using h3
      · simpa [sRHeld, hpc] using h4
      · simpa [sEHeld, hpc] using h5
      · simp only [NUM_REINDEER] at hi
        simp [rDelta, hpc, NUM_REINDEER] at h6 ⊢
        omega
      · intro _; exact h7 (Or.inl ⟨i, hpc⟩)
  case resetR =>
    simp [santaStep, hpc] at hs
    subst hs
    have hrc : s.reindeerCount = NUM_REINDEER := h7 (Or.inr hpc)
    refine ⟨h1, h2, ?_, ?_, ?_, ?_, ?_, h8, h9, h10⟩
    · simpa [sCrit, hpc] using h3
    · simpa [sRHeld, hpc] using h4
    · simpa [sEHeld, hpc] using h5
    · have hrc9 : s.reindeerCount = 9 := by simpa [NUM_REINDEER] using hrc
      have h6' : s.reindeerCount + s.reindeerSem
          = s.reindeerPcs.countP rArrived + 9 := by
        simpa [rDelta, hpc, NUM_REINDEER] using h6
      simp [rDelta]
      omega
    · rintro (⟨k, hk⟩ | hk) <;> simp at hk
  case unlockRs =>
    simp [santaStep, hpc] at hs
    subst hs
    refine ⟨h1, h2, ?_, ?_, ?_, ?_, ?_, h8, h9, h10⟩
    · simpa [sCrit, hpc] using h3
    · have hcp : s.reindeerPcs.countP rInSec = 0 := by
        cases hm : s.reindeerMutex <;>
          simp [sRHeld, hpc, hm, -List.countP_eq_zero] at h4 <;> omega
      simp [sRHeld, hcp]
    · simpa [sEHeld, hpc] using h5
    · simpa [rDelta, hpc] using h6
    · rintro (⟨k, hk⟩ | hk) <;> simp at hk
  case delivInc =>
    simp [santaStep, hpc] at hs
    subst hs
    refine ⟨h1, h2, ?_, ?_, ?_, ?_, ?_, h8, h9, h10⟩
    · simpa [sCrit, hpc] using h3
    · simpa [sRHeld, hpc] using h4
    · simpa [sEHeld, hpc] using h5
    · simpa [rDelta, hpc] using h6
    · rintro (⟨k, hk⟩ | hk) <;> simp at hk
  case unlockRe =>
    simp [santaStep, hpc] at hs
    subst hs
    refine ⟨h1, h2, ?_, ?_, ?_, ?_, ?_, h8, h9, h10⟩
    · simpa [sCrit, hpc] using h3
    · have hcp : s.reindeerPcs.countP rInSec = 0 := by
        cases hm : s.reindeerMutex <;>
          simp [sRHeld, hpc, hm, -List.countP_eq_zero] at h4 <;> omega
      simp [sRHeld, hcp]
    · simpa [sEHeld, hpc] using h5
    · simpa [rDelta, hpc] using h6
    · rintro (⟨k, hk⟩ | hk) <;> simp at hk
  case lockE =>
    cases hm : s.elfMutex <;> simp [santaStep, hpc, hm] at hs
    subst hs
    refine ⟨h1, h2, ?_, ?_, ?_, ?_, ?_, h8, h9, h10⟩
    · simpa [sCrit, hpc] using h3
    · simpa [sRHeld, hpc] using h4
    · simp [sEHeld, hpc, hm] at h5
      simpa [sEHeld] using h5
    · simpa [rDelta, hpc] using h6
    · rintro (⟨k, hk⟩ | hk) <;> simp at hk
  case checkE =>
    by_cases hec : s.elfCount = ELF_GROUP_SIZE <;> simp [santaStep, hpc, hec] at hs
    · subst hs
      refine ⟨h1, h2, ?_, ?_, ?_, ?_, ?_, h8, h9, Or.inr rfl⟩
      · simpa [sCrit, hpc] using h3
      · simpa [sRHeld, hpc] using h4
      · simpa [sEHeld, hpc] using h5
      · simpa [rDelta, hpc] using h6
      · rintro (⟨k, hk⟩ | hk) <;> simp at hk
    · subst hs
      refine ⟨h1, h2, ?_, ?_, ?_, ?_, ?_, h8, h9, h10⟩
      · simpa [sCrit, hpc] using h3
      · simpa [sRHeld, hpc] using h4
      · simpa [sEHeld, hpc] using h5
      · simpa [rDelta, hpc] using h6
      · rintro (⟨k, hk⟩ | hk) <;> simp at hk
  case postE i =>
    by_cases hi : i < ELF_GROUP_SIZE <;> simp [santaStep, hpc, hi] at hs <;>
      subst hs <;>
      refine ⟨h1, h2, ?_, ?_, ?_, ?_, ?_, h8, h9, h10⟩
    · simpa [sCrit, hpc] using h3
    · simpa [sRHeld, hpc] using h4
    · simpa [sEHeld, hpc] using h5
    · simpa [rDelta, hpc] using h6
    · rintro (⟨k, hk⟩ | hk) <;> simp at hk
    · simpa [sCrit, hpc] using h3
    · simpa [sRHeld, hpc] using h4
    · simpa [sEHeld, hpc] using h5
    · simpa [rDelta, hpc] using h6
    · rintro (⟨k, hk⟩ | hk) <;> simp at hk
  case resetE =>
    simp [santaStep, hpc] at hs
    subst hs
    refine ⟨h1, h2, ?_, ?_, ?_, ?_, ?_, h8, h9, Or.inl rfl⟩
    · simpa [sCrit, hpc] using h3
    · simpa [sRHeld, hpc] using h4
    · simpa [sEHeld, hpc] using h5
    · simpa [rDelta, hpc] using h6
    · rintro (⟨k, hk⟩ | hk) <;> simp at hk
  case unlockEs =>
    simp [santaStep, hpc] at hs
    subst hs
    refine ⟨h1, h2, ?_, ?_, ?_, ?_, ?_, h8, h9, h10⟩
    · simpa [sCrit, hpc] using h3
    · simpa [sRHeld, hpc] using h4
    · have hcp : s.elfPcs.countP eInSec = 0 := by
        cases hm : s.elfMutex <;>
          simp [sEHeld, hpc, hm, -List.countP_eq_zero] at h5 <;> omega
      simp [sEHeld, hcp]
    · simpa [rDelta, hpc] using h6
    · rintro (⟨k, hk⟩ | hk) <;> simp at hk
  case consInc =>
    simp [santaStep, hpc] at hs
    subst hs
    refine ⟨h1, h2, ?_, ?_, ?_, ?_, ?_, h8, h9, h10⟩
    · simpa [sCrit, hpc] using h3
    · simpa [sRHeld, hpc] using h4
    · simpa [sEHeld, hpc] using h5
    · simpa [rDelta, hpc] using h6
    · rintro (⟨k, hk⟩ | hk) <;> simp at hk
  case unlockEe =>
    simp [santaStep, hpc] at hs
    subst hs
    refine ⟨h1, h2, ?_, ?_, ?_, ?_, ?_, h8, h9, h10⟩
    · simpa [sCrit, hpc] using h3
    · simpa [sRHeld, hpc] using h4
    · have hcp : s.elfPcs.countP eInSec = 0 := by
        cases hm : s.elfMutex <;>
          simp [sEHeld, hpc, hm, -List.countP_eq_zero] at h5 <;> omega
      simp [sEHeld, hcp]
    · simpa [rDelta, hpc] using h6
    · rintro (⟨k, hk⟩ | hk) <;> simp at hk
  case postMutex =>
    simp [santaStep, hpc] at hs
    subst hs
    refine ⟨h1, h2, ?_, ?_, ?_, ?_, ?_, h8, h9, h10⟩
    · simp [sCrit, hpc] at h3
      simp [sCrit, h3]
    · simpa [sRHeld, hpc] using h4
    · simpa [sEHeld, hpc] using h5
    · simpa [rDelta, hpc] using h6
    · rintro (⟨k, hk⟩ | hk) <;> simp at hk

theorem reindeer_inv {s s' : SCState} {i : Nat} (hv : Inv s)
    (hs : reindeerStep i s = some s') : Inv s' := by
  obtain ⟨h1, h2, h3, h4, h5, h6, h7, h8, h9, h10⟩ := hv
  cases hget : s.reindeerPcs[i]? with
  | none => simp [reindeerStep, hget] at hs
  | some pc =>
    cases pc
    case rvac =>
      cases hm : s.reindeerMutex <;> simp [reindeerStep, hget, hm] at hs
      subst hs
      refine ⟨by simp [h1], h2, h3, ?_, h5, ?_, h7, h8, h9, h10⟩
      · have hset := countP_set_add rInSec s.reindeerPcs i .rvac .rlocked hget
        simp [rInSec] at hset
        have hz : (if s.reindeerMutex = true then 1 else 0) = 0 := by simp [hm]
        rw [hz] at h4
        simp
        omega
      · have hset := countP_set_add rArrived s.reindeerPcs i .rvac .rlocked hget
        simp [rArrived] at hset
        simp
        omega
    case rlocked =>
      simp [reindeerStep, hget] at hs
      subst hs
      refine ⟨by simp [h1], h2, h3, ?_, h5, ?_, ?_, h8, h9, h10⟩
      · have hset := countP_set_add rInSec s.reindeerPcs i .rlocked .rchk hget
        simp [rInSec] at hset
        simp
        omega
      · have hset := countP_set_add rArrived s.reindeerPcs i .rlocked .rchk hget
        simp [rArrived] at hset
        simp
        omega
      · intro hyp
        exfalso
        have hrh : sRHeld s.santaPc = true := by
          rcases hyp with ⟨k, hk⟩ | hk
          · rw [show s.santaPc = SPc.postR k from hk]; rfl
          · rw [show s.santaPc = SPc.resetR from hk]; rfl
        have hone := one_le_countP hget (show rInSec RPc.rlocked = true from rfl)
        rw [hrh] at h4
        cases hm : s.reindeerMutex <;>
          simp [hm, -List.countP_eq_zero] at h4 <;> omega
    case rchk =>
      by_cases hrc : s.reindeerCount = NUM_REINDEER <;>
        simp only [reindeerStep, hget] at hs
      · rw [if_pos hrc] at hs
        obtain rfl := Option.some.inj hs
        refine ⟨by simp [h1], h2, h3, ?_, h5, ?_, h7, h8, h9, h10⟩
        · have hset := countP_set_add rInSec s.reindeerPcs i .rchk .rpost hget
          simp [rInSec] at hset
          simp
          omega
        · have hset := countP_set_add rArrived s.reindeerPcs i .rchk .rpost hget
          simp [rArrived] at hset
          simp
          omega
      · rw [if_neg hrc] at hs
        obtain rfl := Option.some.inj hs
        refine ⟨by simp [h1], h2, h3, ?_, h5, ?_, h7, h8, h9, h10⟩
        · have hset := countP_set_add rInSec s.reindeerPcs i .rchk .runl hget
          simp [rInSec] at hset
          simp
          omega
        · have hset := countP_set_add rArrived s.reindeerPcs i .rchk .runl hget
          simp [rArrived] at hset
          simp
          omega
    case rpost =>
      simp [reindeerStep, hget] at hs
      subst hs
      refine ⟨by simp [h1], h2, h3, ?_, h5, ?_, h7, h8, h9, h10⟩
      · have hset := countP_set_add rInSec s.reindeerPcs i .rpost .runl hget
        simp [rInSec] at hset
        simp
        omega
      · have hset := countP_set_add rArrived s.reindeerPcs i .rpost .runl hget
        simp [rArrived] at hset
        simp
        omega
    case runl =>
      simp [reindeerStep, hget] at hs
      subst hs
      refine ⟨by simp [h1], h2, h3, ?_, h5, ?_, h7, h8, h9, h10⟩
      · have hset := countP_set_add rInSec s.reindeerPcs i .runl .rwait hget
        simp [rInSec] at hset
        have hone := one_le_countP hget (show rInSec RPc.runl = true from rfl)
        have hb : (if s.reindeerMutex = true then 1 else 0) ≤ 1 := by
          split <;> omega
        show (s.reindeerPcs.set i RPc.rwait).countP rInSec
            + (if sRHeld s.santaPc = true then 1 else 0)
            = if false = true then 1 else 0
        rw [if_neg (show ¬(false = true) by simp)]
        omega
      · have hset := countP_set_add rArrived s.reindeerPcs i .runl .rwait hget
        simp [rArrived] at hset
        simp
        omega
    case rwait =>
      by_cases hp : s.reindeerSem > 0 <;> simp [reindeerStep, hget, hp] at hs
      subst hs
      refine ⟨by simp [h1], h2, h3, ?_, h5, ?_, h7, h8, h9, h10⟩
      · have hset := countP_set_add rInSec s.reindeerPcs i .rwait .rvac hget
        simp [rInSec] at hset
        simp
        omega
      · have hset := countP_set_add rArrived s.reindeerPcs i .rwait .rvac hget
        simp [rArrived] at hset
        simp
        omega

theorem elf_inv {s s' : SCState} {j : Nat} (hv : Inv s)
    (hs : elfStep j s = some s') : Inv s' := by
  obtain ⟨h1, h2, h3, h4, h5, h6, h7, h8, h9, h10⟩ := hv
  cases hget : s.elfPcs[j]? with
  | none => simp [elfStep, hget] at hs
  | some pc =>
    cases pc
    case evac =>
      cases hm : s.elfMutex <;> simp [elfStep, hget, hm] at hs
      subst hs
      refine ⟨h1, by simp [h2], h3, h4, ?_, h6, h7, h8, ?_, h10⟩
      · have hset := countP_set_add eInSec s.elfPcs j .evac .elocked hget
        simp [eInSec] at hset
        have hz : (if s.elfMutex = true then 1 else 0) = 0 := by simp [hm]
        rw [hz] at h5
        simp
        omega
      · intro hw
        exact mem_set_of_ne (h9 hw) hget (by decide)
    case elocked =>
      simp [elfStep, hget] at hs
      subst hs
      refine ⟨h1, by simp [h2], h3, h4, ?_, h6, h7, ?_, ?_, h10⟩
      · have hset := countP_set_add eInSec s.elfPcs j .elocked .echk hget
        simp [eInSec] at hset
        simp
        omega
      · by_cases hw : s.waitingElves = ELF_GROUP_SIZE
        · exfalso
          have hmem := h9 hw
          have hone := one_le_countP hget (show eInSec EPc.elocked = true from rfl)
          have hset0 := countP_set_add eInSec s.elfPcs j .elocked .evac hget
          simp [eInSec] at hset0
          have hmem' : EPc.echk ∈ s.elfPcs.set j .evac :=
            mem_set_of_ne hmem hget (by decide)
          have hpos : 0 < (s.elfPcs.set j .evac).countP eInSec :=
            List.countP_pos_iff.mpr ⟨_, hmem', rfl⟩
          cases hb : s.elfMutex <;>
            simp [hb, -List.countP_eq_zero] at h5 <;> omega
        · simp only [ELF_GROUP_SIZE] at hw h8 ⊢
          simp
          omega
      · intro hw1
        have hj : j < s.elfPcs.length := (List.getElem?_eq_some_iff.mp hget).1
        exact List.getElem?_mem (List.getElem?_set_self (by simpa using hj))
    case echk =>
      by_cases hw : s.waitingElves = ELF_GROUP_SIZE <;>
        simp only [elfStep, hget] at hs
      · rw [if_pos hw] at hs
        obtain rfl := Option.some.inj hs
        refine ⟨h1, by simp [h2], h3, h4, ?_, h6, h7, ?_, ?_, Or.inr rfl⟩
        · have hset := countP_set_add eInSec s.elfPcs j .echk .epost hget
          simp [eInSec] at hset
          simp
          omega
        · simp [ELF_GROUP_SIZE]
        · intro h0
          simp [ELF_GROUP_SIZE] at h0
      · rw [if_neg hw] at hs
        obtain rfl := Option.some.inj hs
        refine ⟨h1, by simp [h2], h3, h4, ?_, h6, h7, h8, ?_, h10⟩
        · have hset := countP_set_add eInSec s.elfPcs j .echk .eunl hget
          simp [eInSec] at hset
          simp
          omega
        · intro hw1
          exact absurd hw1 hw
    case epost =>
      simp [elfStep, hget] at hs
      subst hs
      refine ⟨h1, by simp [h2], h3, h4, ?_, h6, h7, h8, ?_, h10⟩
      · have hset := countP_set_add eInSec s.elfPcs j .epost .eunl hget
        simp [eInSec] at hset
        simp
        omega
      · intro hw
        exact mem_set_of_ne (h9 hw) hget (by decide)
    case eunl =>
      simp [elfStep, hget] at hs
      subst hs
      refine ⟨h1, by simp [h2], h3, h4, ?_, h6, h7, h8, ?_, h10⟩
      · have hset := countP_set_add eInSec s.elfPcs j .eunl .ewait hget
        simp [eInSec] at hset
        have hone := one_le_countP hget (show eInSec EPc.eunl = true from rfl)
        have hb : (if s.elfMutex = true then 1 else 0) ≤ 1 := by
          split <;> omega
        show (s.elfPcs.set j EPc.ewait).countP eInSec
            + (if sEHeld s.santaPc = true then 1 else 0)
            = if false = true then 1 else 0
        rw [if_neg (show ¬(false = true) by simp)]
        omega
      · intro hw
        exact mem_set_of_ne (h9 hw) hget (by decide)
    case ewait =>
      by_cases hp : s.elfSem > 0 <;> simp [elfStep, hget, hp] at hs
      subst hs
      refine ⟨h1, by simp [h2], h3, h4, ?_, h6, h7, h8, ?_, h10⟩
      · have hset := countP_set_add eInSec s.elfPcs j .ewait .evac hget
        simp [eInSec] at hset
        simp
        omega
      · intro hw
        exact mem_set_of_ne (h9 hw) hget (by decide)

/-- The invariant is preserved by every interleaved step. -/
theorem step_inv {s s' : SCState} (hv : Inv s) (hst : StepTo s s') : Inv s' := by
  rcases hst with h | ⟨i, h⟩ | ⟨j, h⟩
  · exact santa_inv hv h
  · exact reindeer_inv hv h
  · exact elf_inv hv h

/-- Every reachable state satisfies the global invariant. -/
theorem reachable_inv {s : SCState} (hs : Reachable s) : Inv s := by
  induction hs with
  | refl => exact inv_init
  | tail _ hstep ih => exact step_inv ih hstep

/-! ### Frame and change-characterization lemmas for single steps -/

theorem reindeerStep_frame {i : Nat} {s s' : SCState}
    (h : reindeerStep i s = some s') :
    s'.deliveries = s.deliveries ∧ s'.elfConsultations = s.elfConsultations ∧
    s'.santaPc = s.santaPc ∧ s'.santaMutex = s.santaMutex ∧
    s'.elfCount = s.elfCount ∧ s'.waitingElves = s.waitingElves ∧
    s'.elfMutex = s.elfMutex ∧ s'.elfPcs = s.elfPcs ∧ s'.elfSem = s.elfSem := by
  cases hget : s.reindeerPcs[i]? <;> simp only [reindeerStep, hget] at h
  case none => exact Option.noConfusion h
  case some pc =>
    cases pc <;> simp only at h <;> (try split at h) <;>
      (try exact Option.noConfusion h) <;>
      (obtain rfl := Option.some.inj h) <;>
      exact ⟨rfl, rfl, rfl, rfl, rfl, rfl, rfl, rfl, rfl⟩

theorem elfStep_frame {j : Nat} {s s' : SCState}
    (h : elfStep j s = some s') :
    s'.deliveries = s.deliveries ∧ s'.elfConsultations = s.elfConsultations ∧
    s'.santaPc = s.santaPc ∧ s'.santaMutex = s.santaMutex ∧
    s'.reindeerCount = s.reindeerCount ∧ s'.reindeerMutex = s.reindeerMutex ∧
    s'.reindeerPcs = s.reindeerPcs ∧ s'.reindeerSem = s.reindeerSem := by
  cases hget : s.elfPcs[j]? <;> simp only [elfStep, hget] at h
  case none => exact Option.noConfusion h
  case some pc =>
    cases pc <;> simp only at h <;> (try split at h) <;>
      (try exact Option.noConfusion h) <;>
      (obtain rfl := Option.some.inj h) <;>
      exact ⟨rfl, rfl, rfl, rfl, rfl, rfl, rfl, rfl⟩

theorem santaStep_rc_change {s s' : SCState} (h : santaStep s = some s')
    (hne : s'.reindeerCount ≠ s.reindeerCount) :
    s.santaPc = SPc.resetR ∧ s'.reindeerCount = 0 := by
  cases hpc : s.santaPc <;> simp only [santaStep, hpc] at h <;>
    (try split at h) <;>
    (try exact Option.noConfusion h) <;>
    (obtain rfl := Option.some.inj h) <;>
    first
      | exact absurd rfl hne
      | exact ⟨rfl, rfl⟩

theorem santaStep_elfCount_change {s s' : SCState} (h : santaStep s = some s')
    (hne : s'.elfCount ≠ s.elfCount) :
    s.santaPc = SPc.resetE ∧ s'.elfCount = 0 := by
  cases hpc : s.santaPc <;> simp only [santaStep, hpc] at h <;>
    (try split at h) <;>
    (try exact Option.noConfusion h) <;>
    (obtain rfl := Option.some.inj h) <;>
    first
      | exact absurd rfl hne
      | exact ⟨rfl, rfl⟩

theorem santaStep_waitingElves {s s' : SCState} (h : santaStep s = some s') :
    s'.waitingElves = s.waitingElves := by
  cases hpc : s.santaPc <;> simp only [santaStep, hpc] at h <;>
    (try split at h) <;>
    (try exact Option.noConfusion h) <;>
    (obtain rfl := Option.some.inj h) <;> rfl

theorem santaStep_deliveries_change {s s' : SCState} (h : santaStep s = some s')
    (hne : s'.deliveries ≠ s.deliveries) :
    s.santaPc = SPc.delivInc ∧ s'.deliveries = s.deliveries + 1 ∧
      s'.elfConsultations = s.elfConsultations := by
  cases hpc : s.santaPc <;> simp only [santaStep, hpc] at h <;>
    (try split at h) <;>
    (try exact Option.noConfusion h) <;>
    (obtain rfl := Option.some.inj h) <;>
    first
      | exact absurd rfl hne
      | exact ⟨rfl, rfl, rfl⟩

theorem santaStep_cons_change {s s' : SCState} (h : santaStep s = some s')
    (hne : s'.elfConsultations ≠ s.elfConsultations) :
    s.santaPc = SPc.consInc ∧ s'.elfConsultations = s.elfConsultations + 1 ∧
      s'.deliveries = s.deliveries := by
  cases hpc : s.santaPc <;> simp only [santaStep, hpc] at h <;>
    (try split at h) <;>
    (try exact Option.noConfusion h) <;>
    (obtain rfl := Option.some.inj h) <;>
    first
      | exact absurd rfl hne
      | exact ⟨rfl, rfl, rfl⟩

theorem santaStep_deliveries_mono {s s' : SCState} (h : santaStep s = some s') :
    s.deliveries ≤ s'.deliveries ∧ s.elfConsultations ≤ s'.elfConsultations := by
  cases hpc : s.santaPc <;> simp only [santaStep, hpc] at h <;>
    (try split at h) <;>
    (try exact Option.noConfusion h) <;>
    (obtain rfl := Option.some.inj h) <;>
    exact ⟨by first | exact Nat.le_refl _ | exact Nat.le_succ _,
           by first | exact Nat.le_refl _ | exact Nat.le_succ _⟩

theorem reindeerStep_rc_change {i : Nat} {s s' : SCState}
    (h : reindeerStep i s = some s')
    (hne : s'.reindeerCount ≠ s.reindeerCount) :
    s.reindeerPcs[i]? = some RPc.rlocked ∧
      s'.reindeerCount = s.reindeerCount + 1 := by
  cases hget : s.reindeerPcs[i]? <;> simp only [reindeerStep, hget] at h
  case none => exact Option.noConfusion h
  case some pc =>
    cases pc <;> simp only at h <;> (try split at h) <;>
      (try exact Option.noConfusion h) <;>
      (obtain rfl := Option.some.inj h) <;>
      first
        | exact absurd rfl hne
        | exact ⟨rfl, rfl⟩

theorem elfStep_w_change {j : Nat} {s s' : SCState}
    (h : elfStep j s = some s')
    (hne : s'.waitingElves ≠ s.waitingElves) :
    (s.elfPcs[j]? = some EPc.elocked ∧ s'.waitingElves = s.waitingElves + 1) ∨
    (s.elfPcs[j]? = some EPc.echk ∧ s.waitingElves = ELF_GROUP_SIZE ∧
      s'.waitingElves = 0) := by
  cases hget : s.elfPcs[j]? <;> simp only [elfStep, hget] at h
  case none => exact Option.noConfusion h
  case some pc =>
    cases pc <;> simp only at h
    case evac =>
      split at h
      · exact Option.noConfusion h
      · obtain rfl := Option.some.inj h
        exact absurd rfl hne
    case elocked =>
      obtain rfl := Option.some.inj h
      exact Or.inl ⟨rfl, rfl⟩
    case echk =>
      split at h <;> obtain rfl := Option.some.inj h
      · next hw => exact Or.inr ⟨rfl, hw, rfl⟩
      · exact absurd rfl hne
    case epost =>
      obtain rfl := Option.some.inj h
      exact absurd rfl hne
    case eunl =>
      obtain rfl := Option.some.inj h
      exact absurd rfl hne
    case ewait =>
      split at h
      · obtain rfl := Option.some.inj h
        exact absurd rfl hne
      · exact Option.noConfusion h

theorem elfStep_elfCount_change {j : Nat} {s s' : SCState}
    (h : elfStep j s = some s')
    (hne : s'.elfCount ≠ s.elfCount) :
    s.elfPcs[j]? = some EPc.echk ∧ s.waitingElves = ELF_GROUP_SIZE ∧
      s'.elfCount = ELF_GROUP_SIZE := by
  cases hget : s.elfPcs[j]? <;> simp only [elfStep, hget] at h
  case none => exact Option.noConfusion h
  case some pc =>
    cases pc <;> simp only at h <;> (try split at h) <;>
      (try exact Option.noConfusion h) <;>
      (obtain rfl := Option.some.inj h) <;>
      first
        | exact absurd rfl hne
        | next hw => exact ⟨rfl, hw, rfl⟩

/-! ### Concrete schedules and states -/

/-- `n` consecutive steps of thread `t`. -/
def arr (t : Tid) (n : Nat) : List Tid := List.replicate n t

/-- Schedule: all nine reindeer complete their arrival critical sections
(the ninth also posts `santaSem`). -/
def c5Sched : List Tid :=
  arr (.reindeer 0) 4 ++ arr (.reindeer 1) 4 ++ arr (.reindeer 2) 4 ++
  arr (.reindeer 3) 4 ++ arr (.reindeer 4) 4 ++ arr (.reindeer 5) 4 ++
  arr (.reindeer 6) 4 ++ arr (.reindeer 7) 4 ++ arr (.reindeer 8) 5

/-- Schedule: eight reindeer arrive, an elf trio completes (waking Santa),
Santa wakes and sees `reindeerCount = 8` at the reindeer check, then the
ninth reindeer arrives before Santa reaches the elf check. -/
def c1Sched : List Tid :=
  arr (.reindeer 0) 4 ++ arr (.reindeer 1) 4 ++ arr (.reindeer 2) 4 ++
  arr (.reindeer 3) 4 ++ arr (.reindeer 4) 4 ++ arr (.reindeer 5) 4 ++
  arr (.reindeer 6) 4 ++ arr (.reindeer 7) 4 ++
  arr (.elf 0) 4 ++ arr (.elf 1) 4 ++ arr (.elf 2) 5 ++
  arr .santa 5 ++ arr (.reindeer 8) 5 ++ [.santa]

/-- Schedule: the nine reindeer arrive, then Santa runs up to the end of
its release loop (nine `sem_post(&reindeerSem)` done, service step not yet). -/
def c6Sched : List Tid := c5Sched ++ arr .santa 13

def c1State : SCState := (runSched c1Sched initState).getD initState

def c5State : SCState := (runSched c5Sched initState).getD initState

def c6State : SCState := (runSched c6Sched initState).getD initState

theorem c1State_run : runSched c1Sched initState = some c1State := by decide

theorem c5State_run : runSched c5Sched initState = some c5State := by decide

theorem c6State_run : runSched c6Sched initState = some c6State := by decide

/-- Santa-only schedule for a full reindeer service pass starting at the
reindeer-readiness check: the check, the nine release posts, the counter
reset, the unlock, the service step, and the `santaMutex` post. -/
def rSvcSched : List Tid :=
  [.santa, .santa, .santa, .santa, .santa, .santa, .santa,
   .santa, .santa, .santa, .santa, .santa, .santa, .santa]

/-- Prefix of `rSvcSched`: the check plus the nine release posts. -/
def rPostSched : List Tid :=
  [.santa, .santa, .santa, .santa, .santa, .santa, .santa, .santa, .santa,
   .santa]

/-- Santa-only schedule for a full elf service pass starting at the
elf-readiness check. -/
def eSvcSched : List Tid :=
  [.santa, .santa, .santa, .santa, .santa, .santa, .santa, .santa]

/-- Prefix of `eSvcSched`: the check plus the three release posts. -/
def ePostSched : List Tid := [.santa, .santa, .santa, .santa]

/-- Santa-only schedule of one full iteration of the coordinator loop when
neither group is ready: wake, acquire `santaMutex`, both checks fail, release
`santaMutex`. -/
def noopSched : List Tid :=
  [.santa, .santa, .santa, .santa, .santa, .santa, .santa, .santa, .santa]

/-- A state with Santa at the reindeer-readiness check and a complete cohort. -/
def rReady : SCState :=
  { initState with santaPc := SPc.checkR, santaMutex := 0,
                   reindeerMutex := true, reindeerCount := NUM_REINDEER,
                   reindeerPcs := List.replicate NUM_REINDEER RPc.rwait }

/-- A state with Santa at the elf-readiness check and a ready trio. -/
def eReady : SCState :=
  { initState with santaPc := SPc.checkE, santaMutex := 0,
                   elfMutex := true, elfCount := ELF_GROUP_SIZE,
                   elfPcs := (List.replicate NUM_ELVES EPc.evac).set 0 EPc.ewait }

/-- A state with elf 2 at its group-completion check with a full trio count. -/
def eReady3 : SCState :=
  { initState with elfMutex := true, waitingElves := ELF_GROUP_SIZE,
                   elfPcs := (List.replicate NUM_ELVES EPc.evac).set 2 EPc.echk }

/-- A state with a pending (stale) wake-up and neither gate ready. -/
def staleState : SCState := { initState with santaSem := 1 }

/-- The state after elf 0 takes its lock step from the initial state. -/
def w7post : SCState :=
  { initState with elfMutex := true,
                   elfPcs := (List.replicate NUM_ELVES EPc.evac).set 0 EPc.elocked }

/-! ### The claims -/

/-- C1, counterexample.  The claim states that the elf-service branch is
taken only when `reindeerCount != 9`.  This is false: the reindeer check and
the elf check are made under two different mutexes, so the ninth reindeer can
arrive between them.  Below is a reachable state in which Santa is at the elf
check (line 92), `elfCount = 3`, `reindeerCount = 9`, and Santa nevertheless
takes the elf-service branch. -/
theorem claim1_counterexample :
    Reachable c1State ∧ c1State.santaPc = SPc.checkE ∧
    c1State.elfCount = ELF_GROUP_SIZE ∧
    c1State.reindeerCount = NUM_REINDEER ∧
    santaStep c1State = some { c1State with santaPc := SPc.postE 0 } := by
  refine ⟨runSched_reachable Relation.ReflTransGen.refl c1State_run,
    ?_, ?_, ?_, ?_⟩ <;> decide

/-- C1, amended.  At the reindeer check (line 70) a ready reindeer gate is
always serviced, regardless of elf state, and a non-ready reindeer gate sends
Santa on to the elf check; at the elf check (line 92) the elf-service branch
is taken exactly when `elfCount = 3`.  The reindeer count observed at the
reindeer check — not the one holding when the elf branch is taken — is what
the decision uses; `reindeerCount` may have become 9 again by the time the
elf branch is entered. -/
theorem claim1_priority_amended (s : SCState) :
    (s.santaPc = SPc.checkR → s.reindeerCount = NUM_REINDEER →
      santaStep s = some { s with santaPc := SPc.postR 0 }) ∧
    (s.santaPc = SPc.checkR → s.reindeerCount ≠ NUM_REINDEER →
      santaStep s = some { s with santaPc := SPc.unlockRe }) ∧
    (s.santaPc = SPc.checkE → s.elfCount = ELF_GROUP_SIZE →
      santaStep s = some { s with santaPc := SPc.postE 0 }) ∧
    (s.santaPc = SPc.checkE → s.elfCount ≠ ELF_GROUP_SIZE →
      santaStep s = some { s with santaPc := SPc.unlockEe }) := by
  refine ⟨?_, ?_, ?_, ?_⟩ <;> intro hpc h <;> simp [santaStep, hpc, h]

theorem claim1_priority_amended_witness :
    rReady.santaPc = SPc.checkR ∧ rReady.reindeerCount = NUM_REINDEER ∧
      santaStep rReady = some { rReady with santaPc := SPc.postR 0 } :=
  ⟨rfl, rfl, (claim1_priority_amended rReady).1 rfl rfl⟩

/-- C2: in every reachable state the `santaMutex` semaphore accounting holds:
it is held (value 0) exactly while the single coordinator thread is inside
its decide-and-service sequence (everything from the successful
`sem_wait(&santaMutex)` at line 66 to the `sem_post(&santaMutex)` at
line 113), and its value never exceeds 1.  Since every service action is
performed by the coordinator inside this region, no two service actions can
overlap in any interleaving. -/
theorem claim2_at_most_one_service (s : SCState) (hs : Reachable s) :
    s.santaMutex + (if sCrit s.santaPc = true then 1 else 0) = 1 ∧
    s.santaMutex ≤ 1 ∧
    (sCrit s.santaPc = true → s.santaMutex = 0) := by
  have h3 := (reachable_inv hs).2.2.1
  refine ⟨?_, ?_, ?_⟩
  · by_cases hc : sCrit s.santaPc = true <;> simp [hc, h3]
  · rw [h3]; split <;> omega
  · intro hc; rw [h3, if_pos hc]

theorem claim2_at_most_one_service_witness :
    Reachable initState ∧
      (initState.santaMutex + (if sCrit initState.santaPc = true then 1 else 0)
          = 1 ∧
        initState.santaMutex ≤ 1 ∧
        (sCrit initState.santaPc = true → initState.santaMutex = 0)) :=
  ⟨Relation.ReflTransGen.refl,
    claim2_at_most_one_service initState Relation.ReflTransGen.refl⟩

/-- C3: a full reindeer service pass from the readiness check posts
`reindeerSem` exactly `NUM_REINDEER` times and resets `reindeerCount` to 0
(touching neither `elfSem` nor `elfCount`); a full elf service pass from the
elf check posts `elfSem` exactly `ELF_GROUP_SIZE` times and resets `elfCount`
to 0 (touching neither `reindeerSem` nor `reindeerCount`). -/
theorem claim3_release_all_exact (s : SCState) :
    (s.santaPc = SPc.checkR → s.reindeerCount = NUM_REINDEER →
      (runSched rSvcSched s).map SCState.reindeerSem
          = some (s.reindeerSem + NUM_REINDEER) ∧
      (runSched rSvcSched s).map SCState.reindeerCount = some 0 ∧
      (runSched rSvcSched s).map SCState.elfSem = some s.elfSem ∧
      (runSched rSvcSched s).map SCState.elfCount = some s.elfCount ∧
      (runSched rSvcSched s).map SCState.santaPc = some SPc.postMutex) ∧
    (s.santaPc = SPc.checkE → s.elfCount = ELF_GROUP_SIZE →
      (runSched eSvcSched s).map SCState.elfSem
          = some (s.elfSem + ELF_GROUP_SIZE) ∧
      (runSched eSvcSched s).map SCState.elfCount = some 0 ∧
      (runSched eSvcSched s).map SCState.reindeerSem = some s.reindeerSem ∧
      (runSched eSvcSched s).map SCState.reindeerCount
          = some s.reindeerCount ∧
      (runSched eSvcSched s).map SCState.santaPc = some SPc.postMutex) := by
  constructor
  · intro hpc hrc
    refine ⟨?_, ?_, ?_, ?_, ?_⟩ <;>
      simp [rSvcSched, runSched, threadStep, santaStep, hpc, hrc, NUM_REINDEER]
  · intro hpc hec
    refine ⟨?_, ?_, ?_, ?_, ?_⟩ <;>
      simp [eSvcSched, runSched, threadStep, santaStep, hpc, hec,
        ELF_GROUP_SIZE]

theorem claim3_release_all_exact_witness :
    rReady.santaPc = SPc.checkR ∧ rReady.reindeerCount = NUM_REINDEER ∧
      (runSched rSvcSched rReady).map SCState.reindeerSem
          = some (rReady.reindeerSem + NUM_REINDEER) ∧
      (runSched rSvcSched rReady).map SCState.reindeerCount = some 0 :=
  ⟨rfl, rfl, ((claim3_release_all_exact rReady).1 rfl rfl).1,
    ((claim3_release_all_exact rReady).1 rfl rfl).2.1⟩

theorem rDelta_zero_of_not_sRHeld {pc : SPc} (h : sRHeld pc = false) :
    rDelta pc = 0 := by
  cases pc <;> simp_all [sRHeld, rDelta]

/-- C4: per-arrival notification discipline.  In every reachable state:
a reindeer at its readiness check (line 131) moves to the `santaSem` post
(line 133) iff the count its own increment produced equals `NUM_REINDEER`;
an elf at its check (line 159) moves to the post (line 163), marking
`elfCount` and clearing `waitingElves`, iff its increment made
`waitingElves` equal `ELF_GROUP_SIZE`; at most one reindeer and at most one
elf can ever sit at the posting statement; and while any arrival is still in
progress (a thread between lock and its increment), the counter is strictly
below capacity — so after a cohort completes, no further arrival can reach
the capacity test before the Coordinator resets, making the notification
unique per cohort. -/
theorem claim4_unique_notification (s : SCState) (hs : Reachable s) :
    (∀ i : Nat, s.reindeerPcs[i]? = some RPc.rchk →
      (reindeerStep i s
          = some { s with reindeerPcs := s.reindeerPcs.set i RPc.rpost }
        ↔ s.reindeerCount = NUM_REINDEER)) ∧
    (∀ j : Nat, s.elfPcs[j]? = some EPc.echk →
      (elfStep j s
          = some { s with elfCount := ELF_GROUP_SIZE, waitingElves := 0,
                          elfPcs := s.elfPcs.set j EPc.epost }
        ↔ s.waitingElves = ELF_GROUP_SIZE)) ∧
    s.reindeerPcs.countP (fun pc => decide (pc = RPc.rpost)) ≤ 1 ∧
    s.elfPcs.countP (fun pc => decide (pc = EPc.epost)) ≤ 1 ∧
    (∀ i : Nat, s.reindeerPcs[i]? = some RPc.rlocked →
      s.reindeerCount + 1 ≤ NUM_REINDEER) ∧
    (∀ j : Nat, s.elfPcs[j]? = some EPc.elocked →
      s.waitingElves + 1 ≤ ELF_GROUP_SIZE) := by
  obtain ⟨h1, h2, h3, h4, h5, h6, h7, h8, h9, h10⟩ := reachable_inv hs
  refine ⟨?_, ?_, ?_, ?_, ?_, ?_⟩
  · intro i hget
    constructor
    · intro heq
      by_contra hrc
      simp only [reindeerStep, hget] at heq
      rw [if_neg hrc] at heq
      have hl := congrArg SCState.reindeerPcs (Option.some.inj heq)
      have hlt : i < s.reindeerPcs.length :=
        (List.getElem?_eq_some_iff.mp hget).1
      have h2' := congrArg (fun l : List RPc => l[i]?) hl
      simp [List.getElem?_set_self hlt] at h2'
    · intro hrc
      simp [reindeerStep, hget, hrc]
  · intro j hget
    constructor
    · intro heq
      by_contra hw
      simp only [elfStep, hget] at heq
      rw [if_neg hw] at heq
      have hl := congrArg SCState.elfPcs (Option.some.inj heq)
      have hlt : j < s.elfPcs.length := (List.getElem?_eq_some_iff.mp hget).1
      have h2' := congrArg (fun l : List EPc => l[j]?) hl
      simp [List.getElem?_set_self hlt] at h2'
    · intro hw
      simp [elfStep, hget, hw]
  · have hmono : s.reindeerPcs.countP (fun pc => decide (pc = RPc.rpost))
        ≤ s.reindeerPcs.countP rInSec := by
      refine List.countP_mono_left ?_
      intro x _ hx
      simp only [decide_eq_true_eq] at hx
      subst hx
      rfl
    have hb : (if s.reindeerMutex = true then 1 else 0) ≤ 1 := by
      split <;> omega
    omega
  · have hmono : s.elfPcs.countP (fun pc => decide (pc = EPc.epost))
        ≤ s.elfPcs.countP eInSec := by
      refine List.countP_mono_left ?_
      intro x _ hx
      simp only [decide_eq_true_eq] at hx
      subst hx
      rfl
    have hb : (if s.elfMutex = true then 1 else 0) ≤ 1 := by
      split <;> omega
    omega
  · intro i hget
    have hone := one_le_countP hget (show rInSec RPc.rlocked = true from rfl)
    have hb : (if s.reindeerMutex = true then 1 else 0) ≤ 1 := by
      split <;> omega
    by_cases hsr : sRHeld s.santaPc = true
    · exfalso
      rw [hsr] at h4
      simp only [if_true] at h4
      omega
    · have hsr' : sRHeld s.santaPc = false := by simpa using hsr
      have hrd := rDelta_zero_of_not_sRHeld hsr'
      have hlen := countP_add_one_le_length hget
        (show rArrived RPc.rlocked = false from rfl)
      rw [h1] at hlen
      rw [hrd] at h6
      omega
  · intro j hget
    by_cases hw : s.waitingElves = ELF_GROUP_SIZE
    · exfalso
      have hmem := h9 hw
      have hone := one_le_countP hget (show eInSec EPc.elocked = true from rfl)
      have hset0 := countP_set_add eInSec s.elfPcs j .elocked .evac hget
      simp [eInSec] at hset0
      have hmem' : EPc.echk ∈ s.elfPcs.set j .evac :=
        mem_set_of_ne hmem hget (by decide)
      have hpos : 0 < (s.elfPcs.set j .evac).countP eInSec :=
        List.countP_pos_iff.mpr ⟨_, hmem', rfl⟩
      have hb : (if s.elfMutex = true then 1 else 0) ≤ 1 := by
        split <;> omega
      omega
    · omega

theorem claim4_unique_notification_witness :
    Reachable initState ∧
      initState.reindeerPcs.countP (fun pc => decide (pc = RPc.rpost)) ≤ 1 ∧
      initState.elfPcs.countP (fun pc => decide (pc = EPc.epost)) ≤ 1 :=
  ⟨Relation.ReflTransGen.refl,
    (claim4_unique_notification initState Relation.ReflTransGen.refl).2.2.1,
    (claim4_unique_notification initState Relation.ReflTransGen.refl).2.2.2.1⟩

/-- C5, counterexample.  The claim states that for reindeer as well as for
elves the completing arrival itself resets the arrival counter to 0.  For
reindeer this is false: after all nine reindeer have completed their arrival
critical sections (all are at `sem_wait(&reindeerSem)`, the ninth having
posted `santaSem`), `reindeerCount` is still 9, not 0 — only Santa resets it
at line 79. -/
theorem claim5_counterexample :
    Reachable c5State ∧
    c5State.reindeerPcs = List.replicate NUM_REINDEER RPc.rwait ∧
    c5State.reindeerCount = NUM_REINDEER ∧
    c5State.reindeerCount ≠ 0 := by
  refine ⟨runSched_reachable Relation.ReflTransGen.refl c5State_run,
    ?_, ?_, ?_⟩ <;> decide

/-- C5, amended.  The elf completing a trio resets the arrival counter
`waitingElves` to 0 and marks the gate ready (`elfCount := 3`) inside its own
arrival, so a subsequent elf arrival starts a fresh count at 1.  The
reindeer completing arrival does NOT reset `reindeerCount`: it merely
proceeds to post `santaSem`, leaving the counter at `NUM_REINDEER`; the
reset to 0 is performed by the Coordinator (line 79) during servicing. -/
theorem claim5_arrival_reset_amended (s : SCState) (i j : Nat) :
    (s.elfPcs[j]? = some EPc.echk → s.waitingElves = ELF_GROUP_SIZE →
      elfStep j s
        = some { s with elfCount := ELF_GROUP_SIZE, waitingElves := 0,
                        elfPcs := s.elfPcs.set j EPc.epost }) ∧
    (s.elfPcs[j]? = some EPc.elocked → s.waitingElves = 0 →
      elfStep j s
        = some { s with waitingElves := 1,
                        elfPcs := s.elfPcs.set j EPc.echk }) ∧
    (s.reindeerPcs[i]? = some RPc.rchk → s.reindeerCount = NUM_REINDEER →
      reindeerStep i s
        = some { s with reindeerPcs := s.reindeerPcs.set i RPc.rpost }) ∧
    (s.santaPc = SPc.resetR →
      santaStep s = some { s with reindeerCount := 0,
                                  santaPc := SPc.unlockRs }) := by
  refine ⟨?_, ?_, ?_, ?_⟩
  · intro hget h
    simp [elfStep, hget, h]
  · intro hget h
    simp [elfStep, hget, h]
  · intro hget h
    simp [reindeerStep, hget, h]
  · intro hpc
    simp [santaStep, hpc]

theorem claim5_arrival_reset_amended_witness :
    eReady3.elfPcs[2]? = some EPc.echk ∧
      eReady3.waitingElves = ELF_GROUP_SIZE ∧
      elfStep 2 eReady3
        = some { eReady3 with elfCount := ELF_GROUP_SIZE, waitingElves := 0,
                              elfPcs := eReady3.elfPcs.set 2 EPc.epost } :=
  ⟨by decide, rfl,
    (claim5_arrival_reset_amended eReady3 0 2).1 (by decide) rfl⟩

/-- C6, counterexample.  The claim states that the fixed-duration service
step precedes the capacity-many release posts.  This is false: in the code
the release loop (lines 75-77) runs first and the `usleep`/`deliveries++`
service step (lines 82-83) runs afterwards.  Below is a reachable state in
which all nine `reindeerSem` posts have been issued while `deliveries` is
still 0; four further coordinator steps then perform the service step,
bringing `deliveries` to 1. -/
theorem claim6_counterexample :
    Reachable c6State ∧ c6State.santaPc = SPc.postR NUM_REINDEER ∧
    c6State.reindeerSem = NUM_REINDEER ∧ c6State.deliveries = 0 ∧
    (runSched (arr Tid.santa 4) c6State).map SCState.deliveries = some 1 ∧
    (runSched (arr Tid.santa 4) c6State).map SCState.reindeerSem
      = some NUM_REINDEER := by
  refine ⟨runSched_reachable Relation.ReflTransGen.refl c6State_run,
    ?_, ?_, ?_, ?_, ?_⟩ <;> decide

/-- C6, amended.  In each servicing pass the Coordinator issues the
capacity-many release posts FIRST and performs the fixed-duration service
step afterwards: after the check plus the release posts, the semaphore has
received all `capacity` posts while the service counter is unchanged; the
pass then completes with the counter incremented. -/
theorem claim6_release_before_service_amended (s : SCState) :
    (s.santaPc = SPc.checkR → s.reindeerCount = NUM_REINDEER →
      (runSched rPostSched s).map SCState.reindeerSem
          = some (s.reindeerSem + NUM_REINDEER) ∧
      (runSched rPostSched s).map SCState.deliveries = some s.deliveries ∧
      (runSched rPostSched s).map SCState.santaPc
          = some (SPc.postR NUM_REINDEER) ∧
      (runSched rSvcSched s).map SCState.deliveries
          = some (s.deliveries + 1) ∧
      (runSched rSvcSched s).map SCState.santaPc = some SPc.postMutex) ∧
    (s.santaPc = SPc.checkE → s.elfCount = ELF_GROUP_SIZE →
      (runSched ePostSched s).map SCState.elfSem
          = some (s.elfSem + ELF_GROUP_SIZE) ∧
      (runSched ePostSched s).map SCState.elfConsultations
          = some s.elfConsultations ∧
      (runSched ePostSched s).map SCState.santaPc
          = some (SPc.postE ELF_GROUP_SIZE) ∧
      (runSched eSvcSched s).map SCState.elfConsultations
          = some (s.elfConsultations + 1) ∧
      (runSched eSvcSched s).map SCState.santaPc = some SPc.postMutex) := by
  constructor
  · intro hpc hrc
    refine ⟨?_, ?_, ?_, ?_, ?_⟩ <;>
      simp [rPostSched, rSvcSched, runSched, threadStep, santaStep, hpc, hrc,
        NUM_REINDEER]
  · intro hpc hec
    refine ⟨?_, ?_, ?_, ?_, ?_⟩ <;>
      simp [ePostSched, eSvcSched, runSched, threadStep, santaStep, hpc, hec,
        ELF_GROUP_SIZE]

theorem claim6_release_before_service_amended_witness :
    rReady.santaPc = SPc.checkR ∧ rReady.reindeerCount = NUM_REINDEER ∧
      (runSched rPostSched rReady).map SCState.reindeerSem
          = some (rReady.reindeerSem + NUM_REINDEER) ∧
      (runSched rPostSched rReady).map SCState.deliveries
          = some rReady.deliveries :=
  ⟨rfl, rfl, ((claim6_release_before_service_amended rReady).1 rfl rfl).1,
    ((claim6_release_before_service_amended rReady).1 rfl rfl).2.1⟩

theorem rDelta_zero_of_not_post {pc : SPc}
    (h : ¬((∃ i, pc = SPc.postR i) ∨ pc = SPc.resetR)) : rDelta pc = 0 := by
  cases pc <;> simp_all [rDelta]

/-- C7: across any single step of any thread, `deliveries` and
`elfConsultations` are non-decreasing; a change of `deliveries` can only be
the coordinator's service step at line 83, which increments it by exactly 1
and leaves `elfConsultations` unchanged; symmetrically for
`elfConsultations` at line 105.  In particular both counters are written
only by the coordinator thread. -/
theorem claim7_counter_monotonicity (s s' : SCState) (hst : StepTo s s') :
    s.deliveries ≤ s'.deliveries ∧
    s.elfConsultations ≤ s'.elfConsultations ∧
    (s'.deliveries ≠ s.deliveries →
      santaStep s = some s' ∧ s.santaPc = SPc.delivInc ∧
      s'.deliveries = s.deliveries + 1 ∧
      s'.elfConsultations = s.elfConsultations) ∧
    (s'.elfConsultations ≠ s.elfConsultations →
      santaStep s = some s' ∧ s.santaPc = SPc.consInc ∧
      s'.elfConsultations = s.elfConsultations + 1 ∧
      s'.deliveries = s.deliveries) := by
  rcases hst with h | ⟨i, h⟩ | ⟨j, h⟩
  · obtain ⟨hm1, hm2⟩ := santaStep_deliveries_mono h
    refine ⟨hm1, hm2, ?_, ?_⟩
    · intro hne
      obtain ⟨hpc, he, hc⟩ := santaStep_deliveries_change h hne
      exact ⟨h, hpc, he, hc⟩
    · intro hne
      obtain ⟨hpc, he, hc⟩ := santaStep_cons_change h hne
      exact ⟨h, hpc, he, hc⟩
  · obtain ⟨hd, hc, _⟩ := reindeerStep_frame h
    exact ⟨le_of_eq hd.symm, le_of_eq hc.symm,
      fun hne => absurd hd hne, fun hne => absurd hc hne⟩
  · obtain ⟨hd, hc, _⟩ := elfStep_frame h
    exact ⟨le_of_eq hd.symm, le_of_eq hc.symm,
      fun hne => absurd hd hne, fun hne => absurd hc hne⟩

theorem claim7_counter_monotonicity_witness :
    StepTo initState w7post ∧
      initState.deliveries ≤ w7post.deliveries ∧
      initState.elfConsultations ≤ w7post.elfConsultations :=
  ⟨Or.inr (Or.inr ⟨0, by decide⟩),
    (claim7_counter_monotonicity initState w7post
      (Or.inr (Or.inr ⟨0, by decide⟩))).1,
    (claim7_counter_monotonicity initState w7post
      (Or.inr (Or.inr ⟨0, by decide⟩))).2.1⟩

/-- C8: in every reachable state `reindeerCount ≤ 9` and
`waitingElves ≤ 3` (both are `Nat`, so the lower bound 0 is inherent — the
C code only increments them or assigns 0), and any step that changes
`reindeerCount` happens with `reindeerMutex` held, any step that changes
`waitingElves` happens with `elfMutex` held. -/
theorem claim8_counter_bounds (s s' : SCState) (hs : Reachable s) :
    s.reindeerCount ≤ NUM_REINDEER ∧ s.waitingElves ≤ ELF_GROUP_SIZE ∧
    (StepTo s s' → s'.reindeerCount ≠ s.reindeerCount →
      s.reindeerMutex = true) ∧
    (StepTo s s' → s'.waitingElves ≠ s.waitingElves →
      s.elfMutex = true) := by
  obtain ⟨h1, h2, h3, h4, h5, h6, h7, h8, h9, h10⟩ := reachable_inv hs
  refine ⟨?_, h8, ?_, ?_⟩
  · rcases Classical.em
        ((∃ i, s.santaPc = SPc.postR i) ∨ s.santaPc = SPc.resetR) with hp | hp
    · rw [h7 hp]
    · have hrd := rDelta_zero_of_not_post hp
      have hcle : s.reindeerPcs.countP rArrived ≤ s.reindeerPcs.length :=
        List.countP_le_length rArrived
      rw [h1] at hcle
      rw [hrd] at h6
      omega
  · intro hst hne
    rcases hst with h | ⟨i, h⟩ | ⟨j, h⟩
    · obtain ⟨hpc, _⟩ := santaStep_rc_change h hne
      cases hm : s.reindeerMutex
      · exfalso
        have ha : (if sRHeld SPc.resetR = true then 1 else 0) = 1 := rfl
        have hb : (if (false : Bool) = true then 1 else 0) = 0 := rfl
        rw [hpc, ha, hm, hb] at h4
        omega
      · rfl
    · obtain ⟨hget, _⟩ := reindeerStep_rc_change h hne
      cases hm : s.reindeerMutex
      · exfalso
        have hone := one_le_countP hget (show rInSec RPc.rlocked = true from rfl)
        have hb : (if (false : Bool) = true then 1 else 0) = 0 := rfl
        rw [hm, hb] at h4
        omega
      · rfl
    · obtain ⟨_, _, _, _, hrc', _, _, _⟩ := elfStep_frame h
      exact absurd hrc' hne
  · intro hst hne
    rcases hst with h | ⟨i, h⟩ | ⟨j, h⟩
    · exact absurd (santaStep_waitingElves h) hne
    · obtain ⟨_, _, _, _, _, hw', _, _, _⟩ := reindeerStep_frame h
      exact absurd hw' hne
    · rcases elfStep_w_change h hne with ⟨hget, _⟩ | ⟨hget, _, _⟩
      · cases hm : s.elfMutex
        · exfalso
          have hone := one_le_countP hget
            (show eInSec EPc.elocked = true from rfl)
          have hb : (if (false : Bool) = true then 1 else 0) = 0 := rfl
          rw [hm, hb] at h5
          omega
        · rfl
      · cases hm : s.elfMutex
        · exfalso
          have hone := one_le_countP hget
            (show eInSec EPc.echk = true from rfl)
          have hb : (if (false : Bool) = true then 1 else 0) = 0 := rfl
          rw [hm, hb] at h5
          omega
        · rfl

theorem claim8_counter_bounds_witness :
    Reachable initState ∧ initState.reindeerCount ≤ NUM_REINDEER ∧
      initState.waitingElves ≤ ELF_GROUP_SIZE :=
  ⟨Relation.ReflTransGen.refl,
    (claim8_counter_bounds initState initState Relation.ReflTransGen.refl).1,
    (claim8_counter_bounds initState initState
      Relation.ReflTransGen.refl).2.1⟩

/-- C9: a coordinator iteration that consumes a wake-up while neither gate
is ready is a pure no-op pass: starting at `sem_wait(&santaSem)` with a
pending signal, free mutexes, `reindeerCount ≠ 9` and `elfCount ≠ 3`, the
coordinator-only run of one full loop iteration posts neither release
semaphore and leaves `reindeerCount`, `elfCount`, `waitingElves`,
`deliveries` and `elfConsultations` unchanged, returning to the top of the
loop. -/
theorem claim9_stale_wakeup_noop (s : SCState)
    (hpc : s.santaPc = SPc.waitSanta) (hsem : 0 < s.santaSem)
    (hmx : 0 < s.santaMutex) (hrm : s.reindeerMutex = false)
    (hem : s.elfMutex = false)
    (hrc : s.reindeerCount ≠ NUM_REINDEER)
    (hec : s.elfCount ≠ ELF_GROUP_SIZE) :
    (runSched noopSched s).map SCState.reindeerSem = some s.reindeerSem ∧
    (runSched noopSched s).map SCState.elfSem = some s.elfSem ∧
    (runSched noopSched s).map SCState.reindeerCount
        = some s.reindeerCount ∧
    (runSched noopSched s).map SCState.elfCount = some s.elfCount ∧
    (runSched noopSched s).map SCState.waitingElves
        = some s.waitingElves ∧
    (runSched noopSched s).map SCState.deliveries = some s.deliveries ∧
    (runSched noopSched s).map SCState.elfConsultations
        = some s.elfConsultations ∧
    (runSched noopSched s).map SCState.santaPc = some SPc.waitSanta := by
  refine ⟨?_, ?_, ?_, ?_, ?_, ?_, ?_, ?_⟩ <;>
    simp [noopSched, runSched, threadStep, santaStep, hpc, hsem, hmx, hrm,
      hem, hrc, hec]

theorem claim9_stale_wakeup_noop_witness :
    staleState.santaPc = SPc.waitSanta ∧ 0 < staleState.santaSem ∧
      0 < staleState.santaMutex ∧ staleState.reindeerMutex = false ∧
      staleState.elfMutex = false ∧
      staleState.reindeerCount ≠ NUM_REINDEER ∧
      staleState.elfCount ≠ ELF_GROUP_SIZE ∧
      (runSched noopSched staleState).map SCState.deliveries
        = some staleState.deliveries :=
  ⟨rfl, by decide, by decide, rfl, rfl, by decide, by decide,
    (claim9_stale_wakeup_noop staleState rfl (by decide) (by decide) rfl rfl
      (by decide) (by decide)).2.2.2.2.2.1⟩

/-- C10: in every reachable state `elfCount` is either 0 or 3, never an
intermediate value; any step that changes it happens under `elfMutex` and is
either the trio-completing elf check (lines 159-162, setting it to 3 with
`waitingElves = 3`) or the Coordinator reset (line 101, setting it to 0). -/
theorem claim10_elfCount_binary (s s' : SCState) (hs : Reachable s) :
    (s.elfCount = 0 ∨ s.elfCount = ELF_GROUP_SIZE) ∧
    (StepTo s s' → s'.elfCount ≠ s.elfCount →
      s.elfMutex = true ∧
      ((∃ j : Nat, s.elfPcs[j]? = some EPc.echk ∧
          s.waitingElves = ELF_GROUP_SIZE ∧
          s'.elfCount = ELF_GROUP_SIZE) ∨
        (s.santaPc = SPc.resetE ∧ s'.elfCount = 0))) := by
  obtain ⟨h1, h2, h3, h4, h5, h6, h7, h8, h9, h10⟩ := reachable_inv hs
  refine ⟨h10, ?_⟩
  intro hst hne
  rcases hst with h | ⟨i, h⟩ | ⟨j, h⟩
  · obtain ⟨hpc, h0⟩ := santaStep_elfCount_change h hne
    refine ⟨?_, Or.inr ⟨hpc, h0⟩⟩
    cases hm : s.elfMutex
    · exfalso
      have ha : (if sEHeld SPc.resetE = true then 1 else 0) = 1 := rfl
      have hb : (if (false : Bool) = true then 1 else 0) = 0 := rfl
      rw [hpc, ha, hm, hb] at h5
      omega
    · rfl
  · obtain ⟨_, _, _, _, hec', _, _, _, _⟩ := reindeerStep_frame h
    exact absurd hec' hne
  · obtain ⟨hget, hw, hset3⟩ := elfStep_elfCount_change h hne
    refine ⟨?_, Or.inl ⟨j, hget, hw, hset3⟩⟩
    cases hm : s.elfMutex
    · exfalso
      have hone := one_le_countP hget (show eInSec EPc.echk = true from rfl)
      have hb : (if (false : Bool) = true then 1 else 0) = 0 := rfl
      rw [hm, hb] at h5
      omega
    · rfl

theorem claim10_elfCount_binary_witness :
    Reachable initState ∧
      (initState.elfCount = 0 ∨ initState.elfCount = ELF_GROUP_SIZE) :=
  ⟨Relation.ReflTransGen.refl,
    (claim10_elfCount_binary initState initState
      Relation.ReflTransGen.refl).1⟩

end SantaClaus
